import Mathlib

/-
Verification of the PersonalToolBox file-resolution engine and format
dispatch registry: a shallow embedding of
src/data_loader/utils/file_finder.py and src/format_handler/registry.py.

Strings are embedded as lists of characters (`Str`), absolute filesystem
paths as lists of path segments (`FsPath`).  The filesystem itself
(existence, file/directory kind, directory listings, modification times,
and symlink canonicalization a la `Path.resolve`) is abstracted as a
structure `FS` of oracles; POSIX semantics are assumed (os.name != 'nt').
-/

namespace PTB

/-- A Python string, embedded as its list of characters. -/
abbrev Str := List Char

/-- An absolute POSIX path, embedded as its list of path segments
(so `[]` is the root `/`). -/
abbrev FsPath := List Str

/-- Python `pattern.replace('**', '*')` — the only replacement the source
performs: scan left to right, replace each non-overlapping occurrence of
`**` by `*`, never rescanning replaced text. -/
def replaceDoubleStar : Str → Str
  | [] => []
  | [c] => [c]
  | c :: d :: rest =>
    if c = '*' ∧ d = '*' then '*' :: replaceDoubleStar rest
    else c :: replaceDoubleStar (d :: rest)

/-- `_normalize_pattern` (file_finder.py line 27): `pattern.replace('**', '*')`. -/
def normalize_pattern (pattern : Str) : Str :=
  replaceDoubleStar pattern

/-- Python `s.split('/')` (includes empty fields). -/
def splitOnSlash : Str → List Str
  | [] => [[]]
  | c :: rest =>
    match splitOnSlash rest with
    | [] => [[]]
    | g :: gs => if c = '/' then [] :: g :: gs else (c :: g) :: gs

/-- POSIX `Path(s).is_absolute()` / `s.startswith('/')`. -/
def isAbsoluteStr : Str → Bool
  | [] => false
  | c :: _ => c = '/'

/-- Python `s.lstrip('/')`. -/
def dropLeadingSlashes : Str → Str
  | [] => []
  | c :: rest => if c = '/' then dropLeadingSlashes rest else c :: rest

/-- `'*' in part or '?' in part` (file_finder.py line 156). -/
def hasWildcardChar (part : Str) : Bool :=
  part.contains ('*') || part.contains ('?')

/-- The base/search part split loop of `find_files_by_pattern`
(file_finder.py lines 151-162): before the first wildcard part, nonempty
parts accumulate into the base; from the first wildcard part on, every
part (empty ones included) accumulates into the search pattern. -/
def collectParts : Bool → List Str → List Str × List Str
  | _, [] => ([], [])
  | fw, part :: ps =>
    if fw then
      let r := collectParts true ps
      (r.1, part :: r.2)
    else if hasWildcardChar part then
      let r := collectParts true ps
      (r.1, part :: r.2)
    else if part ≠ [] then
      let r := collectParts false ps
      (part :: r.1, r.2)
    else
      collectParts false ps

/-- Lexical `.`/`..`/empty-segment resolution of joining relative segments
onto an absolute base, as performed by `Path.resolve()` (symlink steps are
delegated to the abstract `FS.canon` oracle). At the root, `..` stays at
the root, as on POSIX. -/
def normSegs (acc : FsPath) : List Str → FsPath
  | [] => acc
  | s :: rest =>
    if s = [] then normSegs acc rest
    else if s = [ '.' ] then normSegs acc rest
    else if s = [ '.', '.' ] then normSegs acc.dropLast rest
    else normSegs (acc ++ [s]) rest

/-- `os.path.commonpath` on two absolute POSIX paths: their longest common
segment prefix (total in this situation; the ValueError branch of the
source arises only for mixed absolute/relative or cross-drive inputs,
which the segment representation excludes). -/
def commonpath : FsPath → FsPath → FsPath
  | a :: as, b :: bs => if a = b then a :: commonpath as bs else []
  | _, _ => []

/-- `validate_path_within_base` (file_finder.py lines 70-103).  The
canonicalization oracle `canon` models `Path.resolve`; a `none` result
models any resolution failure, which the source catches and converts to
`False` (fail-closed). Returns true iff both paths canonicalize and
`commonpath` of the canonical base and target equals the canonical base. -/
def validate_path_within_base (canon : FsPath → Option FsPath)
    (resolved_path : FsPath) (base_directory : FsPath) : Bool :=
  match canon base_directory, canon resolved_path with
  | some resolved_base, some resolved_target =>
      commonpath resolved_base resolved_target == resolved_base
  | _, _ => false

/-- Abstract filesystem: existence/kind/listing/mtime oracles plus a total
canonicalization oracle `canon` modelling the (non-strict, non-raising)
`Path.resolve` symlink resolution, and the process working directory. -/
structure FS where
  existsPath : FsPath → Bool
  isFile : FsPath → Bool
  isDir : FsPath → Bool
  children : FsPath → List Str
  mtime : FsPath → Nat
  canon : FsPath → FsPath
  cwd : FsPath

/-- `_resolve_base_directory` (file_finder.py lines 30-67). -/
def resolve_base_directory (fs : FS) (base_directory : Option Str)
    (config_file_path : Option FsPath) : FsPath :=
  match base_directory with
  | none =>
    match config_file_path with
    | some c => fs.canon c.dropLast
    | none => fs.canon fs.cwd
  | some b =>
    if isAbsoluteStr b then fs.canon (normSegs [] (splitOnSlash b))
    else
      match config_file_path with
      | some c => fs.canon (normSegs c.dropLast (splitOnSlash b))
      | none => fs.canon (normSegs fs.cwd (splitOnSlash b))

/-- `fnmatch`-style wildcard match of one glob segment against one file
name, as used by pathlib glob segment selectors: `*` matches any sequence,
`?` any single character, other characters literally (character classes
are not used by this repository). -/
def wildMatch : Str → Str → Bool
  | [], s => s == []
  | c :: ps, s =>
    if c = '*' then s.tails.any (fun t => wildMatch ps t)
    else
      match s with
      | [] => false
      | d :: ss =>
        if c = '?' then wildMatch ps ss
        else if c = d then wildMatch ps ss
        else false

/-- One-level-per-segment glob walk, modelling `Path.glob` for
non-recursive patterns (the only kind the claims exercise): nonterminal
segments descend only into matching directories, the terminal segment
returns every matching entry of the directory. -/
def globSegs (fs : FS) : FsPath → List Str → List FsPath
  | _, [] => []
  | base, [seg] =>
      ((fs.children base).filter (fun n => wildMatch seg n)).map (fun n => base ++ [n])
  | base, seg :: rest =>
      (((fs.children base).filter
          (fun n => wildMatch seg n && fs.isDir (base ++ [n]))).map
        (fun n => base ++ [n])).flatMap (fun b => globSegs fs b rest)

/-- `search_base.glob(search_pattern)`: pathlib drops empty and `.`
components when parsing the pattern, then walks segment by segment. -/
def glob (fs : FS) (base : FsPath) (pattern : Str) : List FsPath :=
  globSegs fs base
    ((splitOnSlash pattern).filter (fun s => !(s == []) && !(s == [ '.' ])))

/-- `str(p)` for an absolute POSIX path. -/
def pathStr (p : FsPath) : Str :=
  match p with
  | [] => [ '/' ]
  | segs => segs.foldl (fun acc seg => acc ++ '/' :: seg) []

/-- Python string `<=`: lexicographic by code point. -/
def strLe : Str → Str → Bool
  | [], _ => true
  | _ :: _, [] => false
  | a :: as, b :: bs => if a < b then true else if b < a then false else strLe as bs

/-- Sort key order used by `sorted(file_matches, key=lambda p: str(p))`. -/
def pathLe (a b : FsPath) : Prop := strLe (pathStr a) (pathStr b) = true

instance : DecidableRel pathLe := fun a b => by unfold pathLe; infer_instance

/-- `sorted(file_matches, key=lambda p: str(p))`. -/
def sortByPath (l : List FsPath) : List FsPath :=
  List.insertionSort pathLe l

/-- Python `max(l, key=f)` on a nonempty list: the first element attaining
the maximum key (later elements replace only on strictly greater key). -/
def pyMaxBy (f : FsPath → Nat) : List FsPath → FsPath
  | [] => []
  | x :: xs => xs.foldl (fun cur y => if f cur < f y then y else cur) x

/-- Match-strategy enum of `find_files_by_pattern`. -/
inductive MatchStrategy
  | first
  | latest
  | all
deriving DecidableEq

/-- The two error kinds raised by the resolution engine:
`FileNotFoundError` and `ValueError`. -/
inductive Err
  | notFound
  | valueError
deriving DecidableEq

/-- Return shape of `find_files_by_pattern` / `resolve_file_path`:
a single path, or (under strategy `all`) a list of paths. -/
inductive FindResult
  | one (p : FsPath)
  | many (ps : List FsPath)
deriving DecidableEq

/-- The paths carried by a `FindResult`. -/
def resultPaths : FindResult → List FsPath
  | .one p => [p]
  | .many ps => ps

/-- Base-directory and search-pattern computation of
`find_files_by_pattern` (file_finder.py lines 138-181): absolute patterns
derive the search/validation base from their own non-wildcard prefix
(the configured base directory is unused on that branch); relative
patterns use the configured base directory and the whole normalized
pattern. -/
def searchConfig (fs : FS) (pattern : Str) (base_directory : Option Str)
    (config_file_path : Option FsPath) : FsPath × Str :=
  let normalized := normalize_pattern pattern
  if isAbsoluteStr normalized then
    let bp := collectParts false (splitOnSlash normalized)
    if bp.1 ≠ [] then
      (fs.canon (normSegs [] bp.1),
       if bp.2 = [] then [ '*' ] else List.intercalate ([ '/' ]) bp.2)
    else
      (fs.canon [], dropLeadingSlashes normalized)
  else
    (resolve_base_directory fs base_directory config_file_path, normalized)

/-- `list(search_base.glob(search_pattern))` filtered to regular files
(file_finder.py lines 196-199). -/
def fileMatches (fs : FS) (pattern : Str) (base_directory : Option Str)
    (config_file_path : Option FsPath) : List FsPath :=
  (glob fs (searchConfig fs pattern base_directory config_file_path).1
      (searchConfig fs pattern base_directory config_file_path).2).filter fs.isFile

/-- `find_files_by_pattern` (file_finder.py lines 106-224). -/
def find_files_by_pattern (fs : FS) (pattern : Str)
    (base_directory : Option Str) (config_file_path : Option FsPath)
    (match_strategy : MatchStrategy) : Except Err FindResult :=
  let base_dir := (searchConfig fs pattern base_directory config_file_path).1
  if fs.existsPath base_dir = false then .error .notFound
  else if fs.isDir base_dir = false then .error .valueError
  else
    let file_matches := fileMatches fs pattern base_directory config_file_path
    if file_matches = [] then .error .notFound
    else if file_matches.all
        (fun m => validate_path_within_base (fun q => some (fs.canon q)) m base_dir) then
      match match_strategy with
      | .all => .ok (.many (sortByPath file_matches))
      | .latest => .ok (.one (pyMaxBy fs.mtime file_matches))
      | .first => .ok (.one ((sortByPath file_matches).headI))
    else .error .valueError

/-- The exact-join candidate `(base_dir / source).resolve()` used by the
relative branch of `resolve_file_path` (file_finder.py line 283). -/
def relativeExactPath (fs : FS) (source : Str) (base_directory : Option Str)
    (config_file_path : Option FsPath) : FsPath :=
  fs.canon (normSegs (resolve_base_directory fs base_directory config_file_path)
      (splitOnSlash source))

/-- `resolve_file_path` (file_finder.py lines 227-301). -/
def resolve_file_path (fs : FS) (source : Str) (base_directory : Option Str)
    (config_file_path : Option FsPath) (match_strategy : MatchStrategy) :
    Except Err FindResult :=
  let base_dir := resolve_base_directory fs base_directory config_file_path
  if isAbsoluteStr source then
    let resolved := fs.canon (normSegs [] (splitOnSlash source))
    if validate_path_within_base (fun q => some (fs.canon q)) resolved base_dir = false then
      .error .valueError
    else if fs.existsPath resolved && fs.isFile resolved then .ok (.one resolved)
    else find_files_by_pattern fs source base_directory config_file_path match_strategy
  else
    let exact_path := relativeExactPath fs source base_directory config_file_path
    if validate_path_within_base (fun q => some (fs.canon q)) exact_path base_dir = false then
      .error .valueError
    else if fs.existsPath exact_path && fs.isFile exact_path then .ok (.one exact_path)
    else find_files_by_pattern fs source base_directory config_file_path match_strategy

/-- Python `str.lower()` (ASCII suffices for this repository's names). -/
def toLowerStr (s : Str) : Str := s.map Char.toLower

/-- A registered format handler, abstracted to the capabilities the
registry consults: its declared format name, supported extensions and
`can_handle(source, format_hint)` predicate. The `hid` field is an
identity tag distinguishing handler instances. -/
structure Handler where
  hid : Nat
  format_name : Str
  extensions : List Str
  can_handle : Str → Option Str → Bool

/-- A Python dict keyed by strings: assignment replaces in place or
appends, lookup scans for the key. -/
abbrev Dict := List (Str × Handler)

/-- `key in d`. -/
def containsKey : Dict → Str → Bool
  | [], _ => false
  | (k, _) :: rest, key => if k = key then true else containsKey rest key

/-- `d[key]` as an option. -/
def lookupDict : Dict → Str → Option Handler
  | [], _ => none
  | (k, v) :: rest, key => if k = key then some v else lookupDict rest key

/-- `d[key] = v`. -/
def insertDict : Dict → Str → Handler → Dict
  | [], key, v => [(key, v)]
  | (k, v0) :: rest, key, v =>
    if k = key then (key, v) :: rest else (k, v0) :: insertDict rest key v

/-- Stable insertion used to model `list.sort(key=priority, reverse=True)`:
a new element lands after every element of greater-or-equal priority, so
equal-priority registrants keep their relative order. -/
def insertDescStable (x : Int × Handler) : List (Int × Handler) → List (Int × Handler)
  | [] => [x]
  | y :: ys => if y.1 < x.1 then x :: y :: ys else y :: insertDescStable x ys

/-- Stable descending sort by priority (Python `sort` is stable, and
`reverse=True` preserves stability). -/
def pySortDesc (l : List (Int × Handler)) : List (Int × Handler) :=
  l.foldl (fun acc x => insertDescStable x acc) []

/-- `FormatRegistry` state (registry.py lines 20-26). -/
structure FormatRegistry where
  handlers : List (Int × Handler)
  extension_map : Dict
  format_name_map : Dict

/-- `FormatRegistry()`. -/
def emptyRegistry : FormatRegistry :=
  { handlers := [], extension_map := [], format_name_map := [] }

/-- The extension-map update loop of `register` (registry.py lines 51-54):
membership is tested with the raw declared extension, but the inserted key
is the lowercased extension. -/
def updateExtensionMap (m : Dict) (handler : Handler) : Dict :=
  handler.extensions.foldl
    (fun acc ext =>
      if containsKey acc ext then acc
      else insertDict acc (toLowerStr ext) handler) m

/-- `FormatRegistry.register` (registry.py lines 28-58): append and
stable-sort the priority list, update the extension map (guarded
insertion) and the format-name map (unconditional overwrite). -/
def register (r : FormatRegistry) (handler : Handler) (priority : Int) :
    FormatRegistry :=
  { handlers := pySortDesc (r.handlers ++ [(priority, handler)])
    extension_map := updateExtensionMap r.extension_map handler
    format_name_map :=
      insertDict r.format_name_map (toLowerStr handler.format_name) handler }

/-- The priority-ordered `can_handle` scan of `get_handler`. -/
def findCanHandle (handlers : List (Int × Handler)) (source : Str)
    (hint : Option Str) : Option Handler :=
  match handlers with
  | [] => none
  | (_, h) :: rest =>
    if h.can_handle source hint then some h else findCanHandle rest source hint

/-- The substring after the last dot: `source.rsplit('.', 1)[1]`. -/
def afterLastDot (s : Str) : Str :=
  (s.reverse.takeWhile (fun c => c ≠ '.')).reverse

/-- `FormatRegistry.get_handler` (registry.py lines 60-111): tier 1 is the
format override (skipped entirely when the override is absent or the empty
string, which is falsy in Python) — exact lowercased format-name match,
else a priority-ordered `can_handle(source, hint)` scan; tier 2 is the
lowercased-extension map; tier 3 is a priority-ordered no-hint
`can_handle` scan; `none` models the final ValueError. -/
def get_handler (r : FormatRegistry) (source : Str)
    (format_override : Option Str) : Option Handler :=
  let tier1 : Option Handler :=
    match format_override with
    | none => none
    | some ov =>
      if ov = [] then none
      else
        match lookupDict r.format_name_map (toLowerStr ov) with
        | some h => some h
        | none => findCanHandle r.handlers source (some ov)
  match tier1 with
  | some h => some h
  | none =>
    let tier2 : Option Handler :=
      if '.' ∈ source then
        lookupDict r.extension_map ('.' :: toLowerStr (afterLastDot source))
      else none
    match tier2 with
    | some h => some h
    | none => findCanHandle r.handlers source none

/-- Filesystem with a file `/outside/a.csv` and directories `/`, `/outside`
and `/data`; no symlinks (`canon = id`). -/
def fsC1 : FS :=
  { existsPath := fun p =>
      p == ([] : FsPath) || p == [ "outside".toList ] || p == [ "data".toList ] ||
        p == [ "outside".toList, "a.csv".toList ]
    isFile := fun p => p == [ "outside".toList, "a.csv".toList ]
    isDir := fun p =>
      p == ([] : FsPath) || p == [ "outside".toList ] || p == [ "data".toList ]
    children := fun p =>
      if p == [ "outside".toList ] then [ "a.csv".toList ] else []
    mtime := fun _ => 0
    canon := id
    cwd := [] }

/-- Empty symlink-free filesystem. -/
def fsEmpty : FS :=
  { existsPath := fun _ => false
    isFile := fun _ => false
    isDir := fun _ => false
    children := fun _ => []
    mtime := fun _ => 0
    canon := id
    cwd := [] }

/-- Filesystem with files `/cfgdir/a.csv` and `/cfgdir/b.csv`, the
directory listing enumerating `b.csv` before `a.csv`. -/
def fsC4a : FS :=
  { existsPath := fun p =>
      p == ([] : FsPath) || p == [ "cfgdir".toList ] ||
        p == [ "cfgdir".toList, "a.csv".toList ] || p == [ "cfgdir".toList, "b.csv".toList ]
    isFile := fun p =>
      p == [ "cfgdir".toList, "a.csv".toList ] || p == [ "cfgdir".toList, "b.csv".toList ]
    isDir := fun p => p == ([] : FsPath) || p == [ "cfgdir".toList ]
    children := fun p =>
      if p == [ "cfgdir".toList ] then [ "b.csv".toList, "a.csv".toList ] else []
    mtime := fun _ => 0
    canon := id
    cwd := [] }

/-- Filesystem where `/cfgdir/evil.csv` is a symlink whose canonical
target `/etc/evil.csv` lies outside `/cfgdir`. -/
def fsC4b : FS :=
  { existsPath := fun p =>
      p == ([] : FsPath) || p == [ "cfgdir".toList ] ||
        p == [ "cfgdir".toList, "evil.csv".toList ]
    isFile := fun p => p == [ "cfgdir".toList, "evil.csv".toList ]
    isDir := fun p => p == ([] : FsPath) || p == [ "cfgdir".toList ]
    children := fun p =>
      if p == [ "cfgdir".toList ] then [ "evil.csv".toList ] else []
    mtime := fun _ => 0
    canon := fun p =>
      if p == [ "cfgdir".toList, "evil.csv".toList ] then
        [ "etc".toList, "evil.csv".toList ]
      else p
    cwd := [] }

/-- Filesystem with `/d/a.csv` and `/d/b.csv`, both of modification time 7,
enumerated as `b.csv` then `a.csv`. -/
def fsC5a : FS :=
  { existsPath := fun p =>
      p == ([] : FsPath) || p == [ "d".toList ] ||
        p == [ "d".toList, "a.csv".toList ] || p == [ "d".toList, "b.csv".toList ]
    isFile := fun p =>
      p == [ "d".toList, "a.csv".toList ] || p == [ "d".toList, "b.csv".toList ]
    isDir := fun p => p == ([] : FsPath) || p == [ "d".toList ]
    children := fun p =>
      if p == [ "d".toList ] then [ "b.csv".toList, "a.csv".toList ] else []
    mtime := fun _ => 7
    canon := id
    cwd := [] }

/-- Same files and modification times as `fsC5a`, enumerated as `a.csv`
then `b.csv`. -/
def fsC5b : FS :=
  { existsPath := fun p =>
      p == ([] : FsPath) || p == [ "d".toList ] ||
        p == [ "d".toList, "a.csv".toList ] || p == [ "d".toList, "b.csv".toList ]
    isFile := fun p =>
      p == [ "d".toList, "a.csv".toList ] || p == [ "d".toList, "b.csv".toList ]
    isDir := fun p => p == ([] : FsPath) || p == [ "d".toList ]
    children := fun p =>
      if p == [ "d".toList ] then [ "a.csv".toList, "b.csv".toList ] else []
    mtime := fun _ => 7
    canon := id
    cwd := [] }

/-- Filesystem where `/data` exists but is a regular file, not a
directory. -/
def fsC6 : FS :=
  { existsPath := fun p => p == ([] : FsPath) || p == [ "data".toList ]
    isFile := fun p => p == [ "data".toList ]
    isDir := fun p => p == ([] : FsPath)
    children := fun _ => []
    mtime := fun _ => 0
    canon := id
    cwd := [] }

/-- Filesystem with a regular file literally named `data*.csv` under
`/cfgdir`. -/
def fsC8 : FS :=
  { existsPath := fun p =>
      p == ([] : FsPath) || p == [ "cfgdir".toList ] ||
        p == [ "cfgdir".toList, "data*.csv".toList ]
    isFile := fun p => p == [ "cfgdir".toList, "data*.csv".toList ]
    isDir := fun p => p == ([] : FsPath) || p == [ "cfgdir".toList ]
    children := fun p =>
      if p == [ "cfgdir".toList ] then [ "data*.csv".toList ] else []
    mtime := fun _ => 0
    canon := id
    cwd := [] }

/-- First-registered handler claiming extension `.CSV`. -/
def handlerA : Handler :=
  { hid := 0
    format_name := "aaa".toList
    extensions := [ ".CSV".toList ]
    can_handle := fun _ _ => false }

/-- Second-registered handler claiming the same extension `.CSV`. -/
def handlerB : Handler :=
  { hid := 1
    format_name := "bbb".toList
    extensions := [ ".CSV".toList ]
    can_handle := fun _ _ => false }

/-- Registry with `handlerA` registered before `handlerB`, both claiming
the extension `.CSV`. -/
def regC9 : FormatRegistry :=
  register (register emptyRegistry handlerA 10) handlerB 5

/-- A csv handler whose `can_handle` always declines. -/
def handlerC : Handler :=
  { hid := 0
    format_name := "csv".toList
    extensions := [ ".csv".toList ]
    can_handle := fun _ _ => false }

/-- Registry with only `handlerC` registered. -/
def regC10 : FormatRegistry :=
  register emptyRegistry handlerC 10

theorem strLe_total : ∀ a b : Str, strLe a b = true ∨ strLe b a = true := by
  intro a
  induction a with
  | nil => intro b; left; rfl
  | cons x xs ih =>
    intro b
    cases b with
    | nil => right; rfl
    | cons y ys =>
      by_cases hxy : x < y
      · left; simp [strLe, hxy]
      · by_cases hyx : y < x
        · right; simp [strLe, hyx]
        · rcases ih ys with h | h
          · left; simp [strLe, hxy, hyx, h]
          · right; simp [strLe, hxy, hyx, h]

theorem strLe_trans :
    ∀ a b c : Str, strLe a b = true → strLe b c = true → strLe a c = true := by
  intro a
  induction a with
  | nil => intro b c _ _; rfl
  | cons x xs ih =>
    intro b c hab hbc
    cases b with
    | nil => simp [strLe] at hab
    | cons y ys =>
      cases c with
      | nil => simp [strLe] at hbc
      | cons z zs =>
        by_cases hxy : x < y
        · by_cases hyz : y < z
          · simp [strLe, lt_trans hxy hyz]
          · by_cases hzy : z < y
            · simp [strLe, hyz, hzy] at hbc
            · have hyz' : y = z := le_antisymm (not_lt.mp hzy) (not_lt.mp hyz)
              simp [strLe, hyz' ▸ hxy]
        · by_cases hyx : y < x
          · simp [strLe, hxy, hyx] at hab
          · have hxy' : x = y := le_antisymm (not_lt.mp hyx) (not_lt.mp hxy)
            by_cases hyz : y < z
            · simp [strLe, hxy' ▸ hyz]
            · by_cases hzy : z < y
              · simp [strLe, hyz, hzy] at hbc
              · have hyz' : y = z := le_antisymm (not_lt.mp hzy) (not_lt.mp hyz)
                have hab' : strLe xs ys = true := by
                  simpa [strLe, hxy, hyx] using hab
                have hbc' : strLe ys zs = true := by
                  simpa [strLe, hyz, hzy] using hbc
                have hxz1 : ¬ x < z := by rw [hxy', hyz']; exact lt_irrefl z
                have hzx1 : ¬ z < x := by rw [hxy', hyz']; exact lt_irrefl z
                simp [strLe, hxz1, hzx1, ih ys zs hab' hbc']

instance : IsTotal FsPath pathLe :=
  ⟨fun a b => strLe_total (pathStr a) (pathStr b)⟩

instance : IsTrans FsPath pathLe :=
  ⟨fun _ _ _ hab hbc => strLe_trans _ _ _ hab hbc⟩

theorem mem_sortByPath {p : FsPath} {l : List FsPath} :
    p ∈ sortByPath l ↔ p ∈ l :=
  (List.perm_insertionSort pathLe l).mem_iff

theorem sortByPath_ne_nil {l : List FsPath} (h : l ≠ []) : sortByPath l ≠ [] := by
  intro hc
  have hp := List.perm_insertionSort pathLe l
  rw [sortByPath] at hc
  rw [hc] at hp
  exact h hp.symm.eq_nil

theorem headI_mem {l : List FsPath} (h : l ≠ []) : l.headI ∈ l := by
  cases l with
  | nil => exact absurd rfl h
  | cons x xs => simp [List.headI]

theorem foldlMax_mem (f : FsPath → Nat) :
    ∀ (xs : List FsPath) (cur : FsPath),
      xs.foldl (fun c y => if f c < f y then y else c) cur = cur ∨
        xs.foldl (fun c y => if f c < f y then y else c) cur ∈ xs := by
  intro xs
  induction xs with
  | nil => intro cur; left; rfl
  | cons y ys ih =>
    intro cur
    simp only [List.foldl_cons]
    by_cases h : f cur < f y
    · rw [if_pos h]
      rcases ih y with h1 | h1
      · right; rw [h1]; exact List.mem_cons_self y ys
      · right; exact List.mem_cons_of_mem y h1
    · rw [if_neg h]
      rcases ih cur with h1 | h1
      · left; exact h1
      · right; exact List.mem_cons_of_mem y h1

theorem foldlMax_ge (f : FsPath → Nat) :
    ∀ (xs : List FsPath) (cur : FsPath),
      f cur ≤ f (xs.foldl (fun c y => if f c < f y then y else c) cur) ∧
        ∀ m ∈ xs, f m ≤ f (xs.foldl (fun c y => if f c < f y then y else c) cur) := by
  intro xs
  induction xs with
  | nil => intro cur; exact ⟨le_refl _, by simp⟩
  | cons y ys ih =>
    intro cur
    simp only [List.foldl_cons]
    by_cases h : f cur < f y
    · rw [if_pos h]
      refine ⟨le_trans (le_of_lt h) (ih y).1, ?_⟩
      intro m hm
      rcases List.mem_cons.mp hm with hEq | hm'
      · rw [hEq]; exact (ih y).1
      · exact (ih y).2 m hm'
    · rw [if_neg h]
      refine ⟨(ih cur).1, ?_⟩
      intro m hm
      rcases List.mem_cons.mp hm with hEq | hm'
      · rw [hEq]; exact le_trans (not_lt.mp h) (ih cur).1
      · exact (ih cur).2 m hm'

theorem pyMaxBy_mem (f : FsPath → Nat) {l : List FsPath} (h : l ≠ []) :
    pyMaxBy f l ∈ l := by
  cases l with
  | nil => exact absurd rfl h
  | cons x xs =>
    rw [pyMaxBy]
    rcases foldlMax_mem f xs x with h1 | h1
    · rw [h1]; exact List.mem_cons_self x xs
    · exact List.mem_cons_of_mem x h1

theorem pyMaxBy_ge (f : FsPath → Nat) {l : List FsPath} :
    ∀ m ∈ l, f m ≤ f (pyMaxBy f l) := by
  cases l with
  | nil => simp
  | cons x xs =>
    intro m hm
    rw [pyMaxBy]
    rcases List.mem_cons.mp hm with rfl | hm'
    · exact (foldlMax_ge f xs m).1
    · exact (foldlMax_ge f xs x).2 m hm'

theorem findCanHandle_eq_none (handlers : List (Int × Handler)) (source : Str)
    (hint : Option Str)
    (h : ∀ ph ∈ handlers, ph.2.can_handle source hint = false) :
    findCanHandle handlers source hint = none := by
  induction handlers with
  | nil => rfl
  | cons ph rest ih =>
    obtain ⟨pr, hh⟩ := ph
    rw [findCanHandle]
    rw [h (pr, hh) (List.mem_cons_self _ _)]
    simp only [Bool.false_eq_true, if_false]
    exact ih (fun q hq => h q (List.mem_cons_of_mem _ hq))

theorem searchConfig_relative (fs : FS) (pattern : Str) (b : Option Str)
    (cfg : Option FsPath)
    (hrel : isAbsoluteStr (normalize_pattern pattern) = false) :
    searchConfig fs pattern b cfg =
      (resolve_base_directory fs b cfg, normalize_pattern pattern) := by
  simp [searchConfig, hrel]

theorem find_files_ok (fs : FS) (pattern : Str) (b : Option Str)
    (cfg : Option FsPath) (strat : MatchStrategy) (r : FindResult)
    (h : find_files_by_pattern fs pattern b cfg strat = .ok r) :
    fileMatches fs pattern b cfg ≠ [] ∧
    (∀ m ∈ fileMatches fs pattern b cfg,
      validate_path_within_base (fun q => some (fs.canon q)) m
        (searchConfig fs pattern b cfg).1 = true) ∧
    (strat = .all → r = .many (sortByPath (fileMatches fs pattern b cfg))) ∧
    (strat = .latest → r = .one (pyMaxBy fs.mtime (fileMatches fs pattern b cfg))) ∧
    (strat = .first → r = .one ((sortByPath (fileMatches fs pattern b cfg)).headI)) := by
  rw [find_files_by_pattern] at h
  by_cases h1 : fs.existsPath (searchConfig fs pattern b cfg).1 = false
  · rw [if_pos h1] at h; exact absurd h (by simp)
  · rw [if_neg h1] at h
    by_cases h2 : fs.isDir (searchConfig fs pattern b cfg).1 = false
    · rw [if_pos h2] at h; exact absurd h (by simp)
    · rw [if_neg h2] at h
      by_cases h3 : fileMatches fs pattern b cfg = []
      · rw [if_pos h3] at h; exact absurd h (by simp)
      · rw [if_neg h3] at h
        by_cases h4 : (fileMatches fs pattern b cfg).all
            (fun m => validate_path_within_base (fun q => some (fs.canon q)) m
              (searchConfig fs pattern b cfg).1) = true
        · rw [if_pos h4] at h
          refine ⟨h3, fun m hm => List.all_eq_true.mp h4 m hm, ?_, ?_, ?_⟩
          · intro hs; subst hs; cases h; rfl
          · intro hs; subst hs; cases h; rfl
          · intro hs; subst hs; cases h; rfl
        · rw [if_neg h4] at h; exact absurd h (by simp)

theorem searchConfig_fst_relative (fs : FS) (pattern : Str) (b : Option Str)
    (cfg : Option FsPath)
    (hrel : isAbsoluteStr (normalize_pattern pattern) = false) :
    (searchConfig fs pattern b cfg).1 = resolve_base_directory fs b cfg := by
  rw [searchConfig_relative fs pattern b cfg hrel]

/-- C2: `validate_path_within_base(P, R)` returns true iff both paths
canonicalize and the longest common path segment of the canonicalized `P`
and `R` equals canonical `R` exactly; in particular any canonicalization
failure yields false (and the function is Bool-valued, so it never
raises). -/
theorem validate_within_base_iff_commonpath (canon : FsPath → Option FsPath)
    (P R : FsPath) :
    validate_path_within_base canon P R = true ↔
      ∃ r p, canon R = some r ∧ canon P = some p ∧ commonpath r p = r := by
  unfold validate_path_within_base
  cases hR : canon R with
  | none => simp
  | some r =>
    cases hP : canon P with
    | none => simp
    | some p =>
      simp only [beq_iff_eq]
      constructor
      · intro h; exact ⟨r, p, rfl, rfl, h⟩
      · rintro ⟨r', p', hr', hp', hcp⟩
        injection hr' with hr'
        injection hp' with hp'
        rw [← hr', ← hp'] at hcp
        exact hcp

/-- C2 witness: with the identity canonicalizer, `/data-other/file` is
rejected against root `/data` (their common path is `/`, not `/data`). -/
theorem validate_within_base_iff_commonpath_witness :
    validate_path_within_base (fun q => some q)
      [ "data-other".toList, "file".toList ] [ "data".toList ] = false := by
  have h := validate_within_base_iff_commonpath (fun q => some q)
    ([ "data-other".toList, "file".toList ]) ([ "data".toList ])
  rcases Bool.eq_false_or_eq_true (validate_path_within_base (fun q => some q)
      [ "data-other".toList, "file".toList ] [ "data".toList ]) with ht | hf
  · rcases h.mp ht with ⟨r, p, hr, hp, hcp⟩
    injection hr with hr
    injection hp with hp
    rw [← hr, ← hp] at hcp
    exact absurd hcp (by decide)
  · exact hf

/-- C3: a relative source whose exact join to the base directory fails
traversal validation makes `resolve_file_path` fail with the ValueError
kind, never with FileNotFoundError, even when the target does not exist
(no existence assumption is made); the two kinds are distinct
constructors of `Err`. -/
theorem resolve_relative_traversal_validation_error (fs : FS) (source : Str)
    (b : Option Str) (cfg : Option FsPath) (strat : MatchStrategy)
    (hrel : isAbsoluteStr source = false)
    (hout : validate_path_within_base (fun q => some (fs.canon q))
        (relativeExactPath fs source b cfg)
        (resolve_base_directory fs b cfg) = false) :
    resolve_file_path fs source b cfg strat = .error .valueError := by
  simp [resolve_file_path, hrel, hout]

/-- C3 witness: source `../../etc/passwd` against base `/cfgdir` (derived
from the config file location) fails with ValueError on an empty
filesystem, where the target certainly does not exist. -/
theorem resolve_relative_traversal_validation_error_witness :
    resolve_file_path fsEmpty ("../../etc/passwd".toList) none
      (some [ "cfgdir".toList, "cfg.yaml".toList ]) .first = .error .valueError :=
  resolve_relative_traversal_validation_error fsEmpty ("../../etc/passwd".toList)
    none (some [ "cfgdir".toList, "cfg.yaml".toList ]) .first (by rfl) (by rfl)

/-- C6 counterexample: with `/data` existing as a regular file (not a
directory), `find_files_by_pattern` fails with the ValueError kind, and
ValueError is not the NotFound kind the claim requires. -/
theorem find_root_not_directory_error_kind_cex :
    find_files_by_pattern fsC6 ("x*.csv".toList) (some ("/data".toList)) none .first =
      .error .valueError ∧ Err.valueError ≠ Err.notFound :=
  ⟨rfl, by decide⟩

/-- C6 (amended): a missing search root fails with the NotFound kind
(FileNotFoundError), while a search root that exists but is not a
directory fails with the ValueError kind. -/
theorem find_root_missing_notfound_notdir_valueerror (fs : FS) (pattern : Str)
    (b : Option Str) (cfg : Option FsPath) (strat : MatchStrategy) :
    (fs.existsPath (searchConfig fs pattern b cfg).1 = false →
      find_files_by_pattern fs pattern b cfg strat = .error .notFound) ∧
    (fs.existsPath (searchConfig fs pattern b cfg).1 = true →
      fs.isDir (searchConfig fs pattern b cfg).1 = false →
      find_files_by_pattern fs pattern b cfg strat = .error .valueError) := by
  constructor
  · intro h
    rw [find_files_by_pattern, if_pos h]
  · intro h1 h2
    rw [find_files_by_pattern, if_neg (by simp [h1]), if_pos h2]

/-- C6 amended witness: a missing root yields NotFound; an
exists-but-not-directory root yields ValueError. -/
theorem find_root_missing_notfound_notdir_valueerror_witness :
    find_files_by_pattern fsEmpty ("y*.csv".toList) (some ("/data".toList)) none .first =
      .error .notFound ∧
    find_files_by_pattern fsC6 ("y*.csv".toList) (some ("/data".toList)) none .first =
      .error .valueError := by
  constructor
  · exact (find_root_missing_notfound_notdir_valueerror fsEmpty ("y*.csv".toList)
      (some ("/data".toList)) none .first).1 (by rfl)
  · exact (find_root_missing_notfound_notdir_valueerror fsC6 ("y*.csv".toList)
      (some ("/data".toList)) none .first).2 (by rfl) (by rfl)

/-- C7: code-bug evidence — on the input `a/***/b.csv` the normalizer
outputs `a/**/b.csv`, whose middle component is still the recursive
wildcard token `**`, contradicting the docstring's goal of enforcing
single-level search. -/
theorem normalize_pattern_keeps_recursive_token :
    normalize_pattern ("a/***/b.csv".toList) = ("a/**/b.csv".toList) ∧
    ([ '*', '*' ] : Str) ∈ splitOnSlash (normalize_pattern ("a/***/b.csv".toList)) :=
  ⟨rfl, by decide⟩

/-- C8: for a relative source whose validated exact join exists as a
regular file, `resolve_file_path` returns that join immediately; glob
expansion (`find_files_by_pattern`) is reached only when the exact-match
existence check fails. -/
theorem resolve_exact_match_before_glob (fs : FS) (source : Str)
    (b : Option Str) (cfg : Option FsPath) (strat : MatchStrategy)
    (hrel : isAbsoluteStr source = false)
    (hin : validate_path_within_base (fun q => some (fs.canon q))
        (relativeExactPath fs source b cfg)
        (resolve_base_directory fs b cfg) = true) :
    resolve_file_path fs source b cfg strat =
      if fs.existsPath (relativeExactPath fs source b cfg) &&
          fs.isFile (relativeExactPath fs source b cfg) then
        .ok (.one (relativeExactPath fs source b cfg))
      else
        find_files_by_pattern fs source b cfg strat := by
  simp [resolve_file_path, hrel, hin]

/-- C8 witness: the literal filename `data*.csv` (containing a
glob-special character) exists under `/cfgdir` and is returned directly
as the exact match. -/
theorem resolve_exact_match_before_glob_witness :
    resolve_file_path fsC8 ("data*.csv".toList) none
      (some [ "cfgdir".toList, "cfg.yaml".toList ]) .first =
      .ok (.one [ "cfgdir".toList, "data*.csv".toList ]) := by
  rw [resolve_exact_match_before_glob fsC8 ("data*.csv".toList) none
    (some [ "cfgdir".toList, "cfg.yaml".toList ]) .first (by rfl) (by rfl)]
  rfl

/-- C9: code-bug evidence — `handlerA` and `handlerB` both declare the
extension `.CSV`; although `handlerA` registered first, extension-based
lookup of `data.csv` resolves to `handlerB` (hid 1), because `register`
tests membership with the raw declared extension but inserts the
lowercased key, so the second registration overwrites the first; each
handler does remain reachable via its own format-name override. -/
theorem registry_extension_first_write_violated :
    handlerA.extensions = handlerB.extensions ∧
    (get_handler regC9 ("data.csv".toList) none).map Handler.hid = some 1 ∧
    (get_handler regC9 ("x".toList) (some ("aaa".toList))).map Handler.hid = some 0 ∧
    (get_handler regC9 ("x".toList) (some ("bbb".toList))).map Handler.hid = some 1 :=
  ⟨rfl, rfl, rfl, rfl⟩

/-- C10: a format override that matches no registered format name and
that every handler's `can_handle(source, hint=override)` declines does
not fail at tier 1: the lookup proceeds exactly as if no override had
been given (extension map, then no-hint scan). -/
theorem get_handler_unknown_override_falls_through (r : FormatRegistry)
    (source : Str) (ov : Str)
    (hname : lookupDict r.format_name_map (toLowerStr ov) = none)
    (hscan : ∀ ph ∈ r.handlers, ph.2.can_handle source (some ov) = false) :
    get_handler r source (some ov) = get_handler r source none := by
  have hfind := findCanHandle_eq_none r.handlers source (some ov) hscan
  by_cases hov : ov = []
  · simp [get_handler, hov]
  · simp [get_handler, hov, hname, hfind]

/-- C10 witness: the unregistered override `xml` on source `data.csv`
falls through and resolves by extension to the csv handler (hid 0). -/
theorem get_handler_unknown_override_falls_through_witness :
    get_handler regC10 ("data.csv".toList) (some ("xml".toList)) =
      get_handler regC10 ("data.csv".toList) none ∧
    (get_handler regC10 ("data.csv".toList) none).map Handler.hid = some 0 := by
  constructor
  · exact get_handler_unknown_override_falls_through regC10 ("data.csv".toList)
      ("xml".toList) (by rfl) (by decide)
  · rfl

/-- C1 counterexample: with configured root `/data`, the absolute pattern
`/outside/*.csv` succeeds and returns `/outside/a.csv`, even though that
match fails validation against the configured root — the validation error
the claim requires is never raised. -/
theorem find_absolute_pattern_outside_root_succeeds_cex :
    find_files_by_pattern fsC1 ("/outside/*.csv".toList) (some ("/data".toList))
      none .first = .ok (.one [ "outside".toList, "a.csv".toList ]) ∧
    validate_path_within_base (fun q => some (fsC1.canon q))
      [ "outside".toList, "a.csv".toList ]
      (resolve_base_directory fsC1 (some ("/data".toList)) none) = false :=
  ⟨rfl, rfl⟩

/-- C1 (amended): for an absolute pattern, `find_files_by_pattern` ignores
the configured base directory and config-file path entirely (any two
choices give identical results), and every path of a successful result is
validated against the base derived from the pattern's own non-wildcard
prefix — `(searchConfig …).1` — rather than the configured root. -/
theorem find_absolute_pattern_ignores_configured_base (fs : FS)
    (pattern : Str) (b1 b2 : Option Str) (c1 c2 : Option FsPath)
    (strat : MatchStrategy)
    (habs : isAbsoluteStr (normalize_pattern pattern) = true) :
    find_files_by_pattern fs pattern b1 c1 strat =
      find_files_by_pattern fs pattern b2 c2 strat ∧
    ∀ r, find_files_by_pattern fs pattern b1 c1 strat = .ok r →
      ∀ p ∈ resultPaths r,
        validate_path_within_base (fun q => some (fs.canon q)) p
          (searchConfig fs pattern b1 c1).1 = true := by
  have hsc : ∀ (b : Option Str) (c : Option FsPath),
      searchConfig fs pattern b c = searchConfig fs pattern b1 c1 := by
    intro b c
    simp [searchConfig, habs]
  constructor
  · simp only [find_files_by_pattern, fileMatches, hsc b2 c2]
  · intro r hr p hp
    obtain ⟨hne, hval, hall, hlatest, hfirst⟩ := find_files_ok _ _ _ _ _ _ hr
    cases strat with
    | all =>
      have hre := hall rfl
      subst hre
      simp only [resultPaths] at hp
      exact hval p (mem_sortByPath.mp hp)
    | latest =>
      have hre := hlatest rfl
      subst hre
      simp only [resultPaths, List.mem_singleton] at hp
      rw [hp]
      exact hval _ (pyMaxBy_mem _ hne)
    | first =>
      have hre := hfirst rfl
      subst hre
      simp only [resultPaths, List.mem_singleton] at hp
      rw [hp]
      exact hval _ (mem_sortByPath.mp (headI_mem (sortByPath_ne_nil hne)))

/-- C1 amended witness: on `fsC1`, the result of the absolute pattern
`/outside/*.csv` is unchanged when the configured base switches from
`/data` to `/elsewhere` with a config path, and the returned match is
validated against the pattern-derived base. -/
theorem find_absolute_pattern_ignores_configured_base_witness :
    find_files_by_pattern fsC1 ("/outside/*.csv".toList) (some ("/data".toList))
        none .first =
      find_files_by_pattern fsC1 ("/outside/*.csv".toList)
        (some ("/elsewhere".toList)) (some [ "x".toList ]) .first ∧
    validate_path_within_base (fun q => some (fsC1.canon q))
      [ "outside".toList, "a.csv".toList ]
      (searchConfig fsC1 ("/outside/*.csv".toList) (some ("/data".toList)) none).1 =
        true := by
  have h := find_absolute_pattern_ignores_configured_base fsC1
    ("/outside/*.csv".toList) (some ("/data".toList)) (some ("/elsewhere".toList))
    none (some [ "x".toList ]) .first (by rfl)
  refine ⟨h.1, ?_⟩
  exact h.2 (.one [ "outside".toList, "a.csv".toList ]) (by rfl) _
    (by simp [resultPaths])

/-- C4: under strategy "all" with a relative pattern, if every file match
validates against the configured root the call succeeds with a
lexicographically sorted permutation of the complete match list, and if
any single match fails validation the whole call fails with the
ValueError kind — no filtered subset is ever returned. -/
theorem find_all_complete_or_fails (fs : FS) (pattern : Str) (b : Option Str)
    (cfg : Option FsPath)
    (hrel : isAbsoluteStr (normalize_pattern pattern) = false)
    (hex : fs.existsPath (resolve_base_directory fs b cfg) = true)
    (hdir : fs.isDir (resolve_base_directory fs b cfg) = true) :
    ((fileMatches fs pattern b cfg ≠ [] ∧
      ∀ m ∈ fileMatches fs pattern b cfg,
        validate_path_within_base (fun q => some (fs.canon q)) m
          (resolve_base_directory fs b cfg) = true) →
      ∃ l, find_files_by_pattern fs pattern b cfg .all = .ok (.many l) ∧
        l.Perm (fileMatches fs pattern b cfg) ∧ l.Sorted pathLe) ∧
    ((∃ m ∈ fileMatches fs pattern b cfg,
        validate_path_within_base (fun q => some (fs.canon q)) m
          (resolve_base_directory fs b cfg) = false) →
      find_files_by_pattern fs pattern b cfg .all = .error .valueError) := by
  have hsc := searchConfig_fst_relative fs pattern b cfg hrel
  constructor
  · rintro ⟨hne, hval⟩
    refine ⟨sortByPath (fileMatches fs pattern b cfg), ?_,
      List.perm_insertionSort _ _, List.sorted_insertionSort _ _⟩
    simp only [find_files_by_pattern, hsc]
    rw [if_neg (by simp [hex]), if_neg (by simp [hdir]), if_neg hne,
      if_pos (List.all_eq_true.mpr hval)]
  · rintro ⟨m, hm, hv⟩
    have hallf : ¬ ((fileMatches fs pattern b cfg).all
        (fun x => validate_path_within_base (fun q => some (fs.canon q)) x
          (resolve_base_directory fs b cfg)) = true) := by
      intro hall
      have hmt := List.all_eq_true.mp hall m hm
      rw [hv] at hmt
      exact Bool.noConfusion hmt
    simp only [find_files_by_pattern, hsc]
    rw [if_neg (by simp [hex]), if_neg (by simp [hdir]),
      if_neg (fun hc => absurd hm (by rw [hc]; exact List.not_mem_nil m)),
      if_neg hallf]

/-- C4 witness: on `fsC4a` (files enumerated out of order) the "all"
strategy returns both files sorted lexicographically; on `fsC4b` (one
match canonicalizes outside the root via a symlink) the whole call fails
with ValueError. -/
theorem find_all_complete_or_fails_witness :
    find_files_by_pattern fsC4a ("*.csv".toList) (some ("/cfgdir".toList))
        none .all =
      .ok (.many [ [ "cfgdir".toList, "a.csv".toList ],
        [ "cfgdir".toList, "b.csv".toList ] ]) ∧
    find_files_by_pattern fsC4b ("*.csv".toList) (some ("/cfgdir".toList))
        none .all = .error .valueError := by
  constructor
  · have h1 := (find_all_complete_or_fails fsC4a ("*.csv".toList)
      (some ("/cfgdir".toList)) none (by rfl) (by rfl) (by rfl)).1
      ⟨by decide, by decide⟩
    obtain ⟨l, hl, hperm, hsorted⟩ := h1
    have hconc : find_files_by_pattern fsC4a ("*.csv".toList)
        (some ("/cfgdir".toList)) none .all =
        .ok (.many [ [ "cfgdir".toList, "a.csv".toList ],
          [ "cfgdir".toList, "b.csv".toList ] ]) := by rfl
    exact hconc
  · exact (find_all_complete_or_fails fsC4b ("*.csv".toList)
      (some ("/cfgdir".toList)) none (by rfl) (by rfl) (by rfl)).2
      ⟨[ "cfgdir".toList, "evil.csv".toList ], by decide, by rfl⟩

/-- C5 counterexample: `fsC5a` and `fsC5b` hold the same two files with
equal modification times and differ only in directory enumeration order
(their listings are permutations), yet "latest" returns `b.csv` on one
and `a.csv` on the other; on `fsC5a` the result is not the
lexicographically smaller path, so ties are not broken by lexicographic
path and the result depends on enumeration order. -/
theorem find_latest_tie_depends_on_enumeration_cex :
    find_files_by_pattern fsC5a ("*.csv".toList) (some ("/d".toList)) none .latest =
      .ok (.one [ "d".toList, "b.csv".toList ]) ∧
    find_files_by_pattern fsC5b ("*.csv".toList) (some ("/d".toList)) none .latest =
      .ok (.one [ "d".toList, "a.csv".toList ]) ∧
    fsC5a.mtime [ "d".toList, "a.csv".toList ] =
      fsC5a.mtime [ "d".toList, "b.csv".toList ] ∧
    (fsC5a.children [ "d".toList ]).Perm (fsC5b.children [ "d".toList ]) ∧
    strLe (pathStr [ "d".toList, "a.csv".toList ])
      (pathStr [ "d".toList, "b.csv".toList ]) = true ∧
    ([ "d".toList, "a.csv".toList ] : FsPath) ≠ [ "d".toList, "b.csv".toList ] :=
  ⟨rfl, rfl, rfl, by decide, by decide, by decide⟩

/-- C5 (amended): under strategy "latest" a successful result is a file
match of maximal modification time; ties are broken by glob enumeration
order (the first maximal match wins), not by lexicographic path. -/
theorem find_latest_returns_max_mtime (fs : FS) (pattern : Str)
    (b : Option Str) (cfg : Option FsPath) (p : FsPath)
    (h : find_files_by_pattern fs pattern b cfg .latest = .ok (.one p)) :
    p ∈ fileMatches fs pattern b cfg ∧
    ∀ m ∈ fileMatches fs pattern b cfg, fs.mtime m ≤ fs.mtime p := by
  obtain ⟨hne, hval, hall, hlatest, hfirst⟩ := find_files_ok _ _ _ _ _ _ h
  have hp : FindResult.one p =
      .one (pyMaxBy fs.mtime (fileMatches fs pattern b cfg)) := hlatest rfl
  injection hp with hp
  rw [hp]
  exact ⟨pyMaxBy_mem _ hne, fun m hm => pyMaxBy_ge _ m hm⟩

/-- C5 amended witness: on `fsC5a` the returned `b.csv` is a match and
its modification time is at least that of `a.csv`. -/
theorem find_latest_returns_max_mtime_witness :
    ([ "d".toList, "b.csv".toList ] : FsPath) ∈
      fileMatches fsC5a ("*.csv".toList) (some ("/d".toList)) none ∧
    fsC5a.mtime [ "d".toList, "a.csv".toList ] ≤
      fsC5a.mtime [ "d".toList, "b.csv".toList ] := by
  have h := find_latest_returns_max_mtime fsC5a ("*.csv".toList)
    (some ("/d".toList)) none ([ "d".toList, "b.csv".toList ]) (by rfl)
  exact ⟨h.1, h.2 _ (by decide)⟩

end PTB
